import Mathlib

/-!
Verification of the conversation-extraction and markup-rendering pipeline of
`claude2pdf` (src/main.rs).

The pipeline has two in-scope stages:

* `extract_conversation_markdown` — reads newline-delimited JSON records,
  filters conversational records, and concatenates a markdown document;
* `render_markdown_with_highlighting` — replaces fenced code regions with
  highlighted HTML (regex `(?s)` + three backticks + `(\w+)?\n(.*?)` + three
  backticks, `Regex::replace_all`), then converts the whole document to HTML
  and wraps it in a fixed shell.

JSON values are modelled by the inductive `Json`; serde deserialization of
the `Root` / `Message` / `Content` / `ContentBlock` structs is modelled by
the `parseRoot` / `parseMessage` / `parseContent` / `parseContentBlock`
functions below, faithful to serde semantics for these declarations:
unknown object fields are ignored, `Option` fields treat a missing key and
a JSON `null` alike as `none`, required `String` fields reject every
non-string value, and the untagged `Content` enum accepts a JSON string
(variant `Content.string`) or an array of valid content blocks (variant
`Content.blocks`) and rejects everything else.

The external collaborators (the `syntect` syntax lookup and highlighter and
the `pulldown_cmark` HTML conversion) are not source of this repository;
they are passed as explicit function parameters, so every theorem about the
renderer holds for an arbitrary behaviour of those libraries.
-/

/-- A JSON value, as produced by `serde_json` from one input line. -/
inductive Json where
  | null
  | bool (b : Bool)
  | num (n : Int)
  | str (s : String)
  | arr (elems : List Json)
  | obj (fields : List (String × Json))

/-- `struct ContentBlock { block_type: String, text: Option<String> }`
(field `block_type` is renamed from the JSON key `"type"`). -/
structure ContentBlock where
  block_type : String
  text : Option String
deriving DecidableEq, Repr

/-- `enum Content { String(String), Blocks(Vec<ContentBlock>) }`, an
untagged serde enum. -/
inductive Content where
  | string (s : String)
  | blocks (bs : List ContentBlock)
deriving DecidableEq, Repr

/-- `struct Message { role: String, content: Content }`. -/
structure Message where
  role : String
  content : Content
deriving DecidableEq, Repr

/-- `struct Root { record_type: Option<String>, message: Option<Message> }`
(field `record_type` is renamed from the JSON key `"type"`). -/
structure Root where
  record_type : Option String
  message : Option Message
deriving DecidableEq, Repr

/-- Look a key up in a JSON object's field list (first occurrence wins;
serde ignores object keys that do not correspond to a struct field). -/
def lookupField : List (String × Json) → String → Option Json
  | [], _ => none
  | (k, v) :: rest, key => if k = key then some v else lookupField rest key

/-- serde deserialization of an `Option<String>` struct field: a missing
key or a JSON `null` give `none`; a JSON string gives `some`; any other
value is a type error. -/
def parseOptStringField (fields : List (String × Json)) (key : String) :
    Except String (Option String) :=
  match lookupField fields key with
  | none => .ok none
  | some .null => .ok none
  | some (.str s) => .ok (some s)
  | some _ => .error ("invalid type for field " ++ key)

/-- serde deserialization of `ContentBlock`: requires an object with a
string under key `"type"`; key `"text"` is an optional string. -/
def parseContentBlock (j : Json) : Except String ContentBlock :=
  match j with
  | .obj fields =>
    match lookupField fields "type" with
    | some (.str t) =>
      match parseOptStringField fields "text" with
      | .ok txt => .ok ⟨t, txt⟩
      | .error e => .error e
    | some _ => .error "invalid type for field type"
    | none => .error "missing field type"
  | _ => .error "invalid type: expected struct ContentBlock"

/-- serde deserialization of `Vec<ContentBlock>`: every element must
deserialize; the first failure aborts. -/
def parseBlocks : List Json → Except String (List ContentBlock)
  | [] => .ok []
  | x :: xs =>
    match parseContentBlock x with
    | .error e => .error e
    | .ok b =>
      match parseBlocks xs with
      | .error e => .error e
      | .ok bs => .ok (b :: bs)

/-- serde deserialization of the untagged enum `Content`: a JSON string is
`Content.string`; an array whose elements all deserialize as content
blocks is `Content.blocks`; everything else matches no variant. -/
def parseContent (j : Json) : Except String Content :=
  match j with
  | .str s => .ok (.string s)
  | .arr xs =>
    match parseBlocks xs with
    | .ok bs => .ok (.blocks bs)
    | .error _ =>
      .error "data did not match any variant of untagged enum Content"
  | _ => .error "data did not match any variant of untagged enum Content"

/-- serde deserialization of `Message`: requires an object with a string
under key `"role"` and a `Content` under key `"content"`. -/
def parseMessage (j : Json) : Except String Message :=
  match j with
  | .obj fields =>
    match lookupField fields "role" with
    | some (.str r) =>
      match lookupField fields "content" with
      | some cv =>
        match parseContent cv with
        | .ok c => .ok ⟨r, c⟩
        | .error e => .error e
      | none => .error "missing field content"
    | some _ => .error "invalid type for field role"
    | none => .error "missing field role"
  | _ => .error "invalid type: expected struct Message"

/-- serde deserialization of `Root` (the type `serde_json::from_str` is
asked for on each line): requires a JSON object; key `"type"` is an
optional string, key `"message"` an optional `Message`. -/
def parseRoot (j : Json) : Except String Root :=
  match j with
  | .obj fields =>
    match parseOptStringField fields "type" with
    | .error e => .error e
    | .ok ty =>
      match lookupField fields "message" with
      | none => .ok ⟨ty, none⟩
      | some .null => .ok ⟨ty, none⟩
      | some mv =>
        match parseMessage mv with
        | .ok m => .ok ⟨ty, some m⟩
        | .error e => .error e
  | _ => .error "invalid type: expected struct Root"

/-- One line of the input file, as seen after `serde_json`'s text-level
scanner: either text that is not valid JSON at all (`invalid`), or the
JSON value the line denotes (`valid`). Shape checking against `Root` is
performed by `parseLine`. -/
inductive LineSrc where
  | invalid (raw : String)
  | valid (j : Json)

/-- `serde_json::from_str::<Root>` on one line: a line that is not valid
JSON is an error; otherwise the value is deserialized as `Root`. -/
def parseLine : LineSrc → Except String Root
  | .invalid raw => .error ("expected value at line: " ++ raw)
  | .valid j => parseRoot j

/-- The inner block loop of `extract_conversation_markdown`
(src/main.rs lines 103-114): skip blocks whose `block_type` is not
`"text"` or whose `text` is absent; append each remaining text followed
by a blank line. -/
def emitBlocks (blocks : List ContentBlock) (output : String) : String :=
  blocks.foldl
    (fun out block =>
      if block.block_type ≠ "text" then out
      else
        match block.text with
        | some text => out ++ text ++ "\n\n"
        | none => out)
    output

/-- The `match message.content` arm of `extract_conversation_markdown`
(src/main.rs lines 98-115). -/
def emitContent (content : Content) (output : String) : String :=
  match content with
  | .string text => output ++ text ++ "\n\n"
  | .blocks blocks => emitBlocks blocks output

/-- The body of the per-line loop of `extract_conversation_markdown`
(src/main.rs lines 85-115), applied to an already-parsed record: drop
records whose kind is not exactly `"assistant"` or `"user"`, drop records
with no message, and otherwise append a `## role` heading and the
message's text content. -/
def processLine (parsed : Root) (output : String) : String :=
  if parsed.record_type ≠ some "assistant" ∧ parsed.record_type ≠ some "user"
  then output
  else
    match parsed.message with
    | none => output
    | some message =>
      emitContent message.content (output ++ "## " ++ message.role ++ "\n\n")

/-- The per-line loop of `extract_conversation_markdown` (src/main.rs
lines 81-116): parse each line, failing the whole run on the first parse
error, and accumulate the output string. -/
def extractLoop : List LineSrc → String → Except String String
  | [], output => .ok output
  | l :: rest, output =>
    match parseLine l with
    | .error e => .error e
    | .ok parsed => extractLoop rest (processLine parsed output)

/-- `extract_conversation_markdown` (src/main.rs lines 75-119), with the
file already split into lines: starts from the empty string and returns
the accumulated document. -/
def extract_conversation_markdown (lines : List LineSrc) :
    Except String String :=
  extractLoop lines ""

/-- The JSON value of the line
`{"type":"user","message":{"role":"user","content":"Hello"}}`. -/
def line1Json : Json :=
  .obj [("type", .str "user"),
        ("message", .obj [("role", .str "user"), ("content", .str "Hello")])]

/-- The JSON value of the line
`{"type":"assistant","message":{"role":"assistant","content":[{"type":"text","text":"Hi there"}]}}`. -/
def line2Json : Json :=
  .obj [("type", .str "assistant"),
        ("message",
          .obj [("role", .str "assistant"),
                ("content",
                  .arr [.obj [("type", .str "text"),
                              ("text", .str "Hi there")]])])]

/-- C1: for the two-line input consisting of the user line `Hello` and the
assistant line whose block content is `Hi there`, extraction succeeds and
the document is exactly a `## user` heading, a blank line, `Hello`, a
blank line, then a `## assistant` heading, a blank line, `Hi there` and a
final blank line — in particular the "user" heading is followed by
"Hello" and then the "assistant" heading is followed by "Hi there", in
that order. -/
theorem extract_two_line_example :
    extract_conversation_markdown [.valid line1Json, .valid line2Json] =
      .ok ("## user\n\n" ++ "Hello" ++ "\n\n" ++
           "## assistant\n\n" ++ "Hi there" ++ "\n\n") := by
  rfl

/-! ## The highlighting renderer

`render_markdown_with_highlighting` (src/main.rs lines 121-162) matches
fenced code regions with the regex `(?s)` + three backticks + `(\w+)?\n` +
`(.*?)` + three backticks and `Regex::replace_all`, highlighting each
region (with silent fallbacks), then runs the markdown-to-HTML conversion
and wraps the result in a fixed HTML shell. The regex is a fixed valid
literal, so its compilation (`Regex::new(..)?`) succeeds; its matching
semantics is embedded directly below. -/

/-- The backtick character (the fence delimiter of the code-block regex). -/
def tick : Char := Char.ofNat 96

/-- Does the character list start with a three-backtick fence? -/
def threeTicks : List Char → Bool
  | a :: b :: c :: _ => a == tick && b == tick && c == tick
  | _ => false

/-- The regex class `\w`, on the ASCII range the inputs use. -/
def isWordChar (c : Char) : Bool := c.isAlphanum || c == '_'

/-- Split off the maximal leading run of word characters (the greedy
optional group `(\w+)?` of the code-block regex; since a shorter run
would leave a word character where the regex then requires `\n`, only the
maximal run can take part in a match). -/
def takeWordRun : List Char → List Char × List Char
  | [] => ([], [])
  | c :: cs =>
    if isWordChar c then
      let p := takeWordRun cs
      (c :: p.1, p.2)
    else ([], c :: cs)

/-- Find the first occurrence of the closing three-backtick fence,
returning the content before it and the remainder after it. This is the
lazy dot-matches-newline scan `(?s)(.*?)` up to the closing fence: the
content may span line breaks and the first closing fence found terminates
the region. -/
def splitAtFence : List Char → Option (List Char × List Char)
  | [] => none
  | c :: cs =>
    if threeTicks (c :: cs) then some ([], cs.drop 2)
    else
      match splitAtFence cs with
      | some p => some (c :: p.1, p.2)
      | none => none

/-- Attempt to match the code-block regex at the head of the input: a
three-backtick fence, an optional run of word characters (the language
tag), a newline, then the shortest run of arbitrary characters up to a
closing three-backtick fence. On success, returns the captured language
tag (`none` when the optional group captured nothing), the captured
region content, and the input remaining after the match. -/
def tryMatch (l : List Char) :
    Option (Option (List Char) × List Char × List Char) :=
  if threeTicks l then
    let p := takeWordRun (l.drop 3)
    match p.2 with
    | [] => none
    | c :: r3 =>
      if c == '\n' then
        match splitAtFence r3 with
        | some q =>
          some ((if p.1.isEmpty then none else some p.1), q.1, q.2)
        | none => none
      else none
  else none

/-- `Regex::replace_all`: repeatedly find the leftmost match of the
code-block regex, emit the replacement for it, and continue scanning
after the match; characters outside matches are kept unchanged. `fuel`
is a structural recursion bound; callers supply `length + 1`, which is
never exhausted because every step consumes at least one character. -/
def replaceAllF (repl : Option (List Char) → List Char → List Char) :
    Nat → List Char → List Char
  | 0, l => l
  | _ + 1, [] => []
  | fuel + 1, c :: cs =>
    match tryMatch (c :: cs) with
    | some (lang, code, rest) => repl lang code ++ replaceAllF repl fuel rest
    | none => c :: replaceAllF repl fuel cs

/-- `code_block_re.replace_all(md, repl)` on a character list. -/
def replaceAll (repl : Option (List Char) → List Char → List Char)
    (l : List Char) : List Char :=
  replaceAllF repl (l.length + 1) l

/-- The successive non-overlapping leftmost matches of the code-block
regex, as (language tag, region content) pairs: the match enumeration
that `replace_all` walks. -/
def findRegionsF : Nat → List Char → List (Option (List Char) × List Char)
  | 0, _ => []
  | _ + 1, [] => []
  | fuel + 1, c :: cs =>
    match tryMatch (c :: cs) with
    | some (lang, code, rest) => (lang, code) :: findRegionsF fuel rest
    | none => findRegionsF fuel cs

/-- The list of fenced regions the code-block regex matches in a
document. -/
def findRegions (l : List Char) : List (Option (List Char) × List Char) :=
  findRegionsF (l.length + 1) l

/-- A syntax definition of the highlighting library (an external
collaborator), identified by name. -/
structure SyntaxDef where
  name : String
deriving DecidableEq, Repr

/-- The language token handed to the syntax lookup:
`caps.get(1).map(|m| m.as_str()).unwrap_or("txt")`. -/
def langTag (lang : Option (List Char)) : String :=
  match lang with
  | some w => String.mk w
  | none => "txt"

/-- The syntax definition used for a region:
`ps.find_syntax_by_token(lang).unwrap_or_else(|| ps.find_syntax_plain_text())`,
with the library lookup passed in as a function. -/
def resolvedSyntax (findSyntaxByToken : String → Option SyntaxDef)
    (plainText : SyntaxDef) (lang : Option (List Char)) : SyntaxDef :=
  (findSyntaxByToken (langTag lang)).getD plainText

/-- The replacement closure of `replace_all` (src/main.rs lines 128-138):
resolve the language tag (falling back to the plain-text definition),
highlight the region, and on a highlighter error fall back to the literal
`<pre><code>..</code></pre>` rendering of the region's text. -/
def codeBlockReplacement (findSyntaxByToken : String → Option SyntaxDef)
    (plainText : SyntaxDef)
    (highlightedHtmlForString : String → SyntaxDef → Except String String)
    (lang : Option (List Char)) (code : List Char) : List Char :=
  let codeStr := String.mk code
  match highlightedHtmlForString codeStr
      (resolvedSyntax findSyntaxByToken plainText lang) with
  | .ok h => h.data
  | .error _ => ("<pre><code>" ++ codeStr ++ "</code></pre>").data

/-- The fixed HTML shell around the converted body (the `format!` template
of src/main.rs lines 144-161), up to the body. -/
def htmlShellPrefix : String :=
  "<!DOCTYPE html>\n<html>\n<head>\n<meta charset=\"utf-8\">\n<style>\nbody \x7b font-family: Arial, sans-serif; padding: 40px; \x7d\npre \x7b overflow-x: auto; background-color: #2b303b; padding: 15px; border-radius: 5px; \x7d\ncode \x7b font-family: monospace; \x7d\nh2 \x7b border-bottom: 1px solid #ddd; padding-bottom: 4px; \x7d\n</style>\n</head>\n<body>\n"

/-- The fixed HTML shell after the body. -/
def htmlShellSuffix : String := "\n</body>\n</html>"

/-- `render_markdown_with_highlighting` (src/main.rs lines 121-162). The
external collaborators are parameters: `findSyntaxByToken` and
`plainText` model the syntax lookup of the highlighting library,
`highlightedHtmlForString` its highlighter (with the fixed theme
applied), and `pushHtml` the markdown-to-HTML conversion (a pure
function of the document, all extensions enabled). The regex literal
compiles, so the only fallible source operation succeeds and the result
is always `.ok`. -/
def render_markdown_with_highlighting
    (findSyntaxByToken : String → Option SyntaxDef) (plainText : SyntaxDef)
    (highlightedHtmlForString : String → SyntaxDef → Except String String)
    (pushHtml : String → String) (md : String) : Except String String :=
  let highlighted := String.mk (replaceAll
    (codeBlockReplacement findSyntaxByToken plainText highlightedHtmlForString)
    md.data)
  let html_output := pushHtml highlighted
  .ok (htmlShellPrefix ++ html_output ++ htmlShellSuffix)

/-- The extract-then-render pipeline of `main` (src/main.rs lines 63-64):
extraction feeds the renderer; the first error aborts. -/
def pipeline (findSyntaxByToken : String → Option SyntaxDef)
    (plainText : SyntaxDef)
    (highlightedHtmlForString : String → SyntaxDef → Except String String)
    (pushHtml : String → String) (lines : List LineSrc) :
    Except String String :=
  match extract_conversation_markdown lines with
  | .error e => .error e
  | .ok md =>
    render_markdown_with_highlighting findSyntaxByToken plainText
      highlightedHtmlForString pushHtml md

/-- C6: fenced-region detection spans embedded newlines and stops at the
first closing fence. The document "```python\nline1\nline2\n```" is
matched as exactly one region whose tag is `python` and whose content is
the two lines (not two regions, not zero); and in
"```python\nA\n```\nB\n```", where a second closing fence follows, the
single matched region's content is exactly "A\n", ending at the first
closing fence. -/
theorem fenced_region_spans_newlines :
    findRegions ("```python\nline1\nline2\n```").data =
      [(some ("python").data, ("line1\nline2\n").data)] ∧
    findRegions ("```python\nA\n```\nB\n```").data =
      [(some ("python").data, ("A\n").data)] := by
  constructor <;> rfl

/-- C7: the highlighting renderer never returns an error to its caller,
for every document and every behaviour of the external highlighting
library: (1) the result is always `.ok` of a complete shell-wrapped
document; (2) an absent language tag is looked up as the plain-text token
"txt", and whenever the lookup fails (garbage, unrecognized or absent
tag alike) the plain-text syntax definition is used; (3) whenever the
highlighting engine fails on a region, that region is rendered as the
literal unstyled `<pre><code>..</code></pre>` markup of its text. -/
theorem renderer_total_with_fallbacks
    (findSyntaxByToken : String → Option SyntaxDef) (plainText : SyntaxDef)
    (highlightedHtmlForString : String → SyntaxDef → Except String String)
    (pushHtml : String → String) (md : String)
    (lang : Option (List Char)) (code : List Char) (e : String) :
    (∃ out, render_markdown_with_highlighting findSyntaxByToken plainText
        highlightedHtmlForString pushHtml md = .ok out) ∧
    langTag none = "txt" ∧
    (findSyntaxByToken (langTag lang) = none →
      resolvedSyntax findSyntaxByToken plainText lang = plainText) ∧
    (highlightedHtmlForString (String.mk code)
        (resolvedSyntax findSyntaxByToken plainText lang) = .error e →
      codeBlockReplacement findSyntaxByToken plainText
          highlightedHtmlForString lang code =
        ("<pre><code>" ++ String.mk code ++ "</code></pre>").data) := by
  refine ⟨⟨_, rfl⟩, rfl, ?_, ?_⟩
  · intro h
    simp [resolvedSyntax, h]
  · intro h
    simp [codeBlockReplacement, h]

/-- A syntax lookup that recognizes nothing (one possible behaviour of the
external library). -/
def noSyntaxLookup : String → Option SyntaxDef := fun _ => none

/-- The plain-text syntax definition. -/
def plainTextSyntaxDef : SyntaxDef := ⟨"Plain Text"⟩

/-- A highlighter that always fails (one possible behaviour of the
external library). -/
def failingHighlighter : String → SyntaxDef → Except String String :=
  fun _ _ => .error "highlighting error"

/-- A markdown-to-HTML conversion for witnesses. -/
def identityHtml : String → String := fun s => s

/-- Witness for C7 at a concrete document, a lookup that recognizes
nothing and a highlighter that always fails. -/
theorem renderer_total_with_fallbacks_witness :
    (∃ out, render_markdown_with_highlighting noSyntaxLookup
        plainTextSyntaxDef failingHighlighter identityHtml
        "```rust\nlet x;\n```" = .ok out) ∧
    langTag none = "txt" ∧
    resolvedSyntax noSyntaxLookup plainTextSyntaxDef (some ("rust").data) =
      plainTextSyntaxDef ∧
    codeBlockReplacement noSyntaxLookup plainTextSyntaxDef failingHighlighter
        (some ("rust").data) ("let x;\n").data =
      ("<pre><code>" ++ String.mk (("let x;\n").data) ++
        "</code></pre>").data := by
  obtain ⟨h1, h2, h3, h4⟩ :=
    renderer_total_with_fallbacks noSyntaxLookup plainTextSyntaxDef
      failingHighlighter identityHtml "```rust\nlet x;\n```"
      (some ("rust").data) ("let x;\n").data "highlighting error"
  exact ⟨h1, h2, h3 rfl, h4 rfl⟩

/-- C8: the extract-then-render pipeline is deterministic: two runs on the
same input produce identical display-markup output. In this embedding
both stages are pure functions of the input (the source performs no
clock, randomness or environment reads in either stage), so the two
runs denote the same value. -/
theorem pipeline_deterministic
    (findSyntaxByToken : String → Option SyntaxDef) (plainText : SyntaxDef)
    (highlightedHtmlForString : String → SyntaxDef → Except String String)
    (pushHtml : String → String) (lines : List LineSrc) :
    pipeline findSyntaxByToken plainText highlightedHtmlForString pushHtml
        lines =
      pipeline findSyntaxByToken plainText highlightedHtmlForString pushHtml
        lines := rfl

/-! ## Structural lemmas about the extraction loop -/

/-- Splitting the line loop at a list concatenation. -/
lemma extractLoop_append (ls1 ls2 : List LineSrc) (out : String) :
    extractLoop (ls1 ++ ls2) out =
      match extractLoop ls1 out with
      | .error e => .error e
      | .ok d => extractLoop ls2 d := by
  induction ls1 generalizing out with
  | nil => simp [extractLoop]
  | cons l rest ih =>
    cases h : parseLine l with
    | error e => simp [extractLoop, h]
    | ok r => simp [extractLoop, h, ih]

/-- A record whose kind is not `"assistant"` or `"user"` leaves the
accumulated output untouched. -/
lemma processLine_skip_kind (r : Root) (out : String)
    (h1 : r.record_type ≠ some "assistant")
    (h2 : r.record_type ≠ some "user") :
    processLine r out = out := by
  simp [processLine, h1, h2]

/-- A record carrying no message leaves the accumulated output
untouched. -/
lemma processLine_skip_nomsg (r : Root) (out : String)
    (hm : r.message = none) :
    processLine r out = out := by
  unfold processLine
  split
  · rfl
  · simp [hm]

/-- A line that parses to a record the loop skips can be removed from the
input without changing the extraction result. -/
lemma extract_drop (ls1 ls2 : List LineSrc) (l : LineSrc) (r : Root)
    (hp : parseLine l = .ok r)
    (hskip : ∀ out, processLine r out = out) :
    extract_conversation_markdown (ls1 ++ l :: ls2) =
      extract_conversation_markdown (ls1 ++ ls2) := by
  unfold extract_conversation_markdown
  rw [extractLoop_append, extractLoop_append]
  cases h : extractLoop ls1 "" with
  | error e => rfl
  | ok d => simp [extractLoop, hp, hskip]

/-- If every line before position `i` parses and the line at `i` fails,
the whole loop fails with that line's error. -/
lemma extractLoop_error_first :
    ∀ (ls1 : List LineSrc) (out : String),
    (∀ l' ∈ ls1, ∃ r, parseLine l' = .ok r) →
    ∀ (l : LineSrc) (ls2 : List LineSrc) (e : String),
    parseLine l = .error e →
    extractLoop (ls1 ++ l :: ls2) out = .error e := by
  intro ls1
  induction ls1 with
  | nil =>
    intro out _ l ls2 e he
    simp [extractLoop, he]
  | cons a rest ih =>
    intro out hok l ls2 e he
    obtain ⟨r, hr⟩ := hok a (List.mem_cons_self a rest)
    simp only [List.cons_append, extractLoop, hr]
    exact ih _ (fun l' hl' => hok l' (List.mem_cons_of_mem a hl')) l ls2 e he

/-- The JSON value of the line `{"type":"summary","message":null}`. -/
def summaryJson : Json :=
  .obj [("type", .str "summary"), ("message", .null)]

/-- The JSON value of the line `{"type":"user","message":null}`. -/
def userNullMessageJson : Json :=
  .obj [("type", .str "user"), ("message", .null)]

/-- C2: a line whose record kind is anything other than exactly
`"assistant"` or `"user"` (a missing kind included) is dropped with no
diagnostic: extraction of an input containing it equals extraction of
the same input with the line removed — it causes no failure and
contributes no heading and no text. -/
theorem nonconversation_kind_dropped (ls1 ls2 : List LineSrc) (l : LineSrc)
    (r : Root) (hp : parseLine l = .ok r)
    (h1 : r.record_type ≠ some "assistant")
    (h2 : r.record_type ≠ some "user") :
    extract_conversation_markdown (ls1 ++ l :: ls2) =
      extract_conversation_markdown (ls1 ++ ls2) :=
  extract_drop ls1 ls2 l r hp (fun out => processLine_skip_kind r out h1 h2)

/-- Witness for C2: the `{"type":"summary","message":null}` line is
dropped from an input that also carries the user `Hello` line. -/
theorem nonconversation_kind_dropped_witness :
    extract_conversation_markdown [.valid summaryJson, .valid line1Json] =
      extract_conversation_markdown [.valid line1Json] :=
  nonconversation_kind_dropped [] [.valid line1Json] (.valid summaryJson)
    ⟨some "summary", none⟩ rfl (by decide) (by decide)

/-- C3: when every line before some line parses and that line fails to
parse, extraction fails with that line's parse error: the malformed line
is not skipped, the run aborts and no document is produced. -/
theorem parse_failure_aborts (ls1 : List LineSrc) (l : LineSrc)
    (ls2 : List LineSrc) (e : String)
    (hok : ∀ l' ∈ ls1, ∃ r, parseLine l' = .ok r)
    (he : parseLine l = .error e) :
    extract_conversation_markdown (ls1 ++ l :: ls2) = .error e :=
  extractLoop_error_first ls1 "" hok l ls2 e he

/-- Witness for C3: a malformed middle line fails the whole run even
though the surrounding lines are valid. -/
theorem parse_failure_aborts_witness :
    extract_conversation_markdown
        [.valid line1Json, .invalid "oops not json", .valid line2Json] =
      .error ("expected value at line: " ++ "oops not json") := by
  exact parse_failure_aborts [.valid line1Json] (.invalid "oops not json")
    [.valid line2Json] ("expected value at line: " ++ "oops not json")
    (by
      intro l' hl'
      simp only [List.mem_singleton] at hl'
      subst hl'
      exact ⟨⟨some "user", some ⟨"user", .string "Hello"⟩⟩, rfl⟩)
    rfl

/-- C4: a record whose kind is exactly `"assistant"` or `"user"` but
whose `message` is absent (a JSON `null` deserializes to an absent
message as well) is dropped silently: extraction of an input containing
the line equals extraction of the same input without it, with no
error. -/
theorem conversational_missing_message_dropped (ls1 ls2 : List LineSrc)
    (l : LineSrc) (r : Root) (hp : parseLine l = .ok r)
    (_hk : r.record_type = some "assistant" ∨ r.record_type = some "user")
    (hm : r.message = none) :
    extract_conversation_markdown (ls1 ++ l :: ls2) =
      extract_conversation_markdown (ls1 ++ ls2) :=
  extract_drop ls1 ls2 l r hp (fun out => processLine_skip_nomsg r out hm)

/-- Witness for C4: the `{"type":"user","message":null}` line contributes
nothing next to the assistant `Hi there` line. -/
theorem conversational_missing_message_dropped_witness :
    extract_conversation_markdown
        [.valid userNullMessageJson, .valid line2Json] =
      extract_conversation_markdown [.valid line2Json] :=
  conversational_missing_message_dropped [] [.valid line2Json]
    (.valid userNullMessageJson) ⟨some "user", none⟩ rfl (Or.inr rfl) rfl

/-! ## Block filtering -/

/-- The texts the block loop keeps: those of blocks whose `block_type` is
exactly `"text"` and whose `text` is present, in block order. -/
def blockTexts (blocks : List ContentBlock) : List String :=
  blocks.filterMap (fun b => if b.block_type = "text" then b.text else none)

/-- Each text followed by a blank line, concatenated in order. -/
def joinedTexts : List String → String
  | [] => ""
  | t :: ts => t ++ "\n\n" ++ joinedTexts ts

/-- The block loop appends exactly the kept texts, each followed by a
blank line, in block order. -/
lemma emitBlocks_eq (blocks : List ContentBlock) (out : String) :
    emitBlocks blocks out = out ++ joinedTexts (blockTexts blocks) := by
  induction blocks generalizing out with
  | nil => simp [emitBlocks, blockTexts, joinedTexts]
  | cons b bs ih =>
    by_cases hb : b.block_type = "text"
    · cases ht : b.text with
      | none =>
        simp [emitBlocks, blockTexts, hb, ht] at ih ⊢
        exact ih out
      | some t =>
        simp [emitBlocks, blockTexts, joinedTexts, hb, ht] at ih ⊢
        rw [ih]
        simp [String.append_assoc]
    · simp [emitBlocks, blockTexts, hb] at ih ⊢
      exact ih out

/-- C5: for every record that survives the kind and message filters and
whose content is a sequence of blocks, the emitted output is the heading
`## role`, a blank line, then exactly the texts of the blocks whose type
tag is `"text"` and whose text is present, each verbatim and followed by
a blank line, in block order — every block failing either condition
contributes nothing, regardless of its position among other blocks. -/
theorem text_blocks_only (parsed : Root) (m : Message)
    (blocks : List ContentBlock) (out : String)
    (hk : parsed.record_type = some "assistant" ∨
      parsed.record_type = some "user")
    (hm : parsed.message = some m) (hc : m.content = .blocks blocks) :
    processLine parsed out =
      out ++ "## " ++ m.role ++ "\n\n" ++ joinedTexts (blockTexts blocks) := by
  have hcond : ¬(parsed.record_type ≠ some "assistant" ∧
      parsed.record_type ≠ some "user") := by
    rcases hk with h | h <;> simp [h]
  unfold processLine
  rw [if_neg hcond]
  simp only [hm, hc, emitContent]
  exact emitBlocks_eq blocks (out ++ "## " ++ m.role ++ "\n\n")

/-- A block list mixing non-text blocks, text blocks with text, and a
text block with no text. -/
def mixedBlocks : List ContentBlock :=
  [⟨"tool_use", some "ignored"⟩, ⟨"text", some "A"⟩, ⟨"text", none⟩,
   ⟨"image", none⟩, ⟨"text", some "B"⟩]

/-- Witness for C5: on the mixed block list only the two text-bearing
text blocks are emitted, in order. -/
theorem text_blocks_only_witness :
    processLine
        ⟨some "assistant", some ⟨"assistant", .blocks mixedBlocks⟩⟩ "" =
      "" ++ "## " ++ "assistant" ++ "\n\n" ++
        joinedTexts (blockTexts mixedBlocks) :=
  text_blocks_only ⟨some "assistant", some ⟨"assistant", .blocks mixedBlocks⟩⟩
    ⟨"assistant", .blocks mixedBlocks⟩ mixedBlocks "" (Or.inl rfl) rfl rfl

/-! ## Monotonicity of extraction -/

/-- The content emitter only appends: its output is the accumulator
followed by what it would emit from an empty accumulator. -/
lemma emitContent_shift (c : Content) (out : String) :
    emitContent c out = out ++ emitContent c "" := by
  cases c with
  | string t =>
    simp [emitContent, String.append_assoc, String.empty_append]
  | blocks bs =>
    show emitBlocks bs out = out ++ emitBlocks bs ""
    rw [emitBlocks_eq, emitBlocks_eq, String.empty_append]

/-- The line processor only appends: its output is the accumulator
followed by what it would emit from an empty accumulator. -/
lemma processLine_shift (r : Root) (out : String) :
    processLine r out = out ++ processLine r "" := by
  by_cases h : r.record_type ≠ some "assistant" ∧ r.record_type ≠ some "user"
  · rw [processLine_skip_kind r out h.1 h.2, processLine_skip_kind r "" h.1 h.2,
      String.append_empty]
  · unfold processLine
    rw [if_neg h, if_neg h]
    cases hm : r.message with
    | none =>
      show out = out ++ ""
      rw [String.append_empty]
    | some m =>
      show emitContent m.content (out ++ "## " ++ m.role ++ "\n\n") =
        out ++ emitContent m.content ("" ++ "## " ++ m.role ++ "\n\n")
      rw [emitContent_shift m.content (out ++ "## " ++ m.role ++ "\n\n"),
        emitContent_shift m.content ("" ++ "## " ++ m.role ++ "\n\n"),
        String.empty_append]
      simp [String.append_assoc]

/-- The extraction loop from an arbitrary accumulator is the loop from
the empty accumulator with the accumulator prepended (and the same error
on failure). -/
lemma extractLoop_shift (ls : List LineSrc) (out : String) :
    extractLoop ls out = (extractLoop ls "").map (fun d => out ++ d) := by
  induction ls generalizing out with
  | nil => simp [extractLoop, Except.map, String.append_empty]
  | cons l rest ih =>
    cases h : parseLine l with
    | error e => simp [extractLoop, h, Except.map]
    | ok r =>
      simp only [extractLoop, h]
      rw [ih (processLine r out), ih (processLine r "")]
      cases hrest : extractLoop rest "" with
      | error e => simp [Except.map]
      | ok d =>
        simp [Except.map, processLine_shift r out, String.append_assoc]

/-- The extraction loop succeeds on any list of lines that all parse. -/
lemma extractLoop_ok (ls : List LineSrc)
    (hok : ∀ l ∈ ls, ∃ r, parseLine l = .ok r) :
    ∃ d, extractLoop ls "" = .ok d := by
  induction ls with
  | nil => exact ⟨"", rfl⟩
  | cons l rest ih =>
    obtain ⟨r, hr⟩ := hok l (List.mem_cons_self l rest)
    obtain ⟨d, hd⟩ := ih (fun l' hl' => hok l' (List.mem_cons_of_mem l hl'))
    refine ⟨processLine r "" ++ d, ?_⟩
    simp only [extractLoop, hr]
    rw [extractLoop_shift rest (processLine r ""), hd]
    rfl

/-- C9: on an input whose lines all parse into records with kind
`"assistant"` or `"user"`, extraction never fails; and extraction is
monotone by concatenation: appending further such lines yields the
document of the first part followed by the document of the appended
part — the earlier output is neither reordered nor altered, the new
sections are appended at the end. -/
theorem valid_extraction_monotone (ls ls' : List LineSrc)
    (hok : ∀ l ∈ ls, ∃ r, parseLine l = .ok r ∧
      (r.record_type = some "assistant" ∨ r.record_type = some "user"))
    (hok' : ∀ l ∈ ls', ∃ r, parseLine l = .ok r ∧
      (r.record_type = some "assistant" ∨ r.record_type = some "user")) :
    ∃ d d', extract_conversation_markdown ls = .ok d ∧
      extract_conversation_markdown ls' = .ok d' ∧
      extract_conversation_markdown (ls ++ ls') = .ok (d ++ d') := by
  obtain ⟨d, hd⟩ := extractLoop_ok ls
    (fun l hl => (hok l hl).imp (fun r h => h.1))
  obtain ⟨d', hd'⟩ := extractLoop_ok ls'
    (fun l hl => (hok' l hl).imp (fun r h => h.1))
  refine ⟨d, d', hd, hd', ?_⟩
  unfold extract_conversation_markdown
  rw [extractLoop_append]
  simp only [hd]
  rw [extractLoop_shift ls' d, hd']
  rfl

/-- Witness for C9: the user `Hello` line then the assistant `Hi there`
line concatenate monotonically. -/
theorem valid_extraction_monotone_witness :
    ∃ d d', extract_conversation_markdown [.valid line1Json] = .ok d ∧
      extract_conversation_markdown [.valid line2Json] = .ok d' ∧
      extract_conversation_markdown [.valid line1Json, .valid line2Json] =
        .ok (d ++ d') := by
  refine valid_extraction_monotone [.valid line1Json] [.valid line2Json] ?_ ?_
  · intro l hl
    simp only [List.mem_singleton] at hl
    subst hl
    exact ⟨⟨some "user", some ⟨"user", .string "Hello"⟩⟩, rfl, Or.inr rfl⟩
  · intro l hl
    simp only [List.mem_singleton] at hl
    subst hl
    exact ⟨⟨some "assistant",
      some ⟨"assistant", .blocks [⟨"text", some "Hi there"⟩]⟩⟩, rfl,
      Or.inl rfl⟩

/-! ## Deserialization precedes filtering -/

/-- A JSON value that is an object carrying a string under the key
`"type"` — the shape a content block must at least have. -/
def hasStringTypeTag (x : Json) : Prop :=
  ∃ f s, x = .obj f ∧ lookupField f "type" = some (.str s)

/-- A value without a string type tag is not a content block. -/
lemma parseContentBlock_error (x : Json) (hx : ¬ hasStringTypeTag x) :
    ∃ e, parseContentBlock x = .error e := by
  cases x with
  | null => exact ⟨_, rfl⟩
  | bool b => exact ⟨_, rfl⟩
  | num n => exact ⟨_, rfl⟩
  | str s => exact ⟨_, rfl⟩
  | arr xs => exact ⟨_, rfl⟩
  | obj f =>
    cases ht : lookupField f "type" with
    | none => exact ⟨"missing field type", by simp [parseContentBlock, ht]⟩
    | some v =>
      cases v with
      | str s => exact absurd ⟨f, s, rfl, ht⟩ hx
      | null =>
        exact ⟨"invalid type for field type", by simp [parseContentBlock, ht]⟩
      | bool b =>
        exact ⟨"invalid type for field type", by simp [parseContentBlock, ht]⟩
      | num n =>
        exact ⟨"invalid type for field type", by simp [parseContentBlock, ht]⟩
      | arr xs =>
        exact ⟨"invalid type for field type", by simp [parseContentBlock, ht]⟩
      | obj f2 =>
        exact ⟨"invalid type for field type", by simp [parseContentBlock, ht]⟩

/-- A block list containing a value without a string type tag fails to
deserialize. -/
lemma parseBlocks_error (xs : List Json)
    (hx : ∃ x ∈ xs, ¬ hasStringTypeTag x) :
    ∃ e, parseBlocks xs = .error e := by
  induction xs with
  | nil => simp at hx
  | cons x rest ih =>
    rcases hx with ⟨y, hy, hbad⟩
    rcases List.mem_cons.mp hy with rfl | hyr
    · obtain ⟨e, he⟩ := parseContentBlock_error y hbad
      exact ⟨e, by simp [parseBlocks, he]⟩
    · cases hpb : parseContentBlock x with
      | error e => exact ⟨e, by simp [parseBlocks, hpb]⟩
      | ok b =>
        obtain ⟨e, he⟩ := ih ⟨y, hyr, hbad⟩
        exact ⟨e, by simp [parseBlocks, hpb, he]⟩

/-- A content value that is neither a string nor a sequence of values
each bearing a string type tag matches no variant of `Content`. -/
lemma parseContent_error (v : Json)
    (hs : ∀ s, v ≠ .str s)
    (ha : ∀ xs, v = .arr xs → ∃ x ∈ xs, ¬ hasStringTypeTag x) :
    ∃ e, parseContent v = .error e := by
  cases v with
  | str s => exact absurd rfl (hs s)
  | arr xs =>
    obtain ⟨e', he'⟩ := parseBlocks_error xs (ha xs rfl)
    exact ⟨"data did not match any variant of untagged enum Content",
      by simp [parseContent, he']⟩
  | null => exact ⟨_, rfl⟩
  | bool b => exact ⟨_, rfl⟩
  | num n => exact ⟨_, rfl⟩
  | obj f => exact ⟨_, rfl⟩

/-- A message object lacking a string role, lacking a content field, or
carrying a malformed content value fails to deserialize. -/
lemma parseMessage_error (mfields : List (String × Json))
    (hbad : lookupField mfields "role" = none
      ∨ (∃ v, lookupField mfields "role" = some v ∧ ∀ s, v ≠ .str s)
      ∨ lookupField mfields "content" = none
      ∨ (∃ v, lookupField mfields "content" = some v ∧ (∀ s, v ≠ .str s)
          ∧ ∀ xs, v = .arr xs → ∃ x ∈ xs, ¬ hasStringTypeTag x)) :
    ∃ e, parseMessage (.obj mfields) = .error e := by
  cases hr : lookupField mfields "role" with
  | none => exact ⟨"missing field role", by simp [parseMessage, hr]⟩
  | some v =>
    cases v with
    | str r =>
      rcases hbad with h | ⟨w, hw, hws⟩ | h | ⟨w, hw, hws, hwa⟩
      · rw [hr] at h
        exact absurd h (by simp)
      · rw [hr] at hw
        exact absurd (Option.some.inj hw).symm (hws r)
      · exact ⟨"missing field content", by simp [parseMessage, hr, h]⟩
      · obtain ⟨e, he⟩ := parseContent_error w hws hwa
        exact ⟨e, by simp [parseMessage, hr, hw, he]⟩
    | null =>
      exact ⟨"invalid type for field role", by simp [parseMessage, hr]⟩
    | bool b =>
      exact ⟨"invalid type for field role", by simp [parseMessage, hr]⟩
    | num n =>
      exact ⟨"invalid type for field role", by simp [parseMessage, hr]⟩
    | arr xs =>
      exact ⟨"invalid type for field role", by simp [parseMessage, hr]⟩
    | obj f2 =>
      exact ⟨"invalid type for field role", by simp [parseMessage, hr]⟩

/-- A record whose message object is malformed fails to deserialize as
`Root`, whatever its `"type"` field holds. -/
lemma parseRoot_error_of_bad_message (fields mfields : List (String × Json))
    (hm : lookupField fields "message" = some (.obj mfields))
    (hbad : lookupField mfields "role" = none
      ∨ (∃ v, lookupField mfields "role" = some v ∧ ∀ s, v ≠ .str s)
      ∨ lookupField mfields "content" = none
      ∨ (∃ v, lookupField mfields "content" = some v ∧ (∀ s, v ≠ .str s)
          ∧ ∀ xs, v = .arr xs → ∃ x ∈ xs, ¬ hasStringTypeTag x)) :
    ∃ e, parseRoot (.obj fields) = .error e := by
  cases hty : parseOptStringField fields "type" with
  | error e => exact ⟨e, by simp [parseRoot, hty]⟩
  | ok ty =>
    obtain ⟨e, he⟩ := parseMessage_error mfields hbad
    exact ⟨e, by simp [parseRoot, hty, hm, he]⟩

/-- C10: kind filtering happens only after the whole line deserializes.
A valid-JSON line whose message object lacks a string role, lacks a
content field, or has a content that is neither a string nor a sequence
of values each bearing a string type tag, fails deserialization, and
extraction of any input containing it (after lines that parse) fails
with a parse error — even when the record's `"type"` field is anything
at all, in particular not `"user"` or `"assistant"`. -/
theorem shape_error_precedes_kind_filter
    (fields mfields : List (String × Json)) (pre post : List LineSrc)
    (hm : lookupField fields "message" = some (.obj mfields))
    (hbad : lookupField mfields "role" = none
      ∨ (∃ v, lookupField mfields "role" = some v ∧ ∀ s, v ≠ .str s)
      ∨ lookupField mfields "content" = none
      ∨ (∃ v, lookupField mfields "content" = some v ∧ (∀ s, v ≠ .str s)
          ∧ ∀ xs, v = .arr xs → ∃ x ∈ xs, ¬ hasStringTypeTag x))
    (hok : ∀ l ∈ pre, ∃ r, parseLine l = .ok r) :
    ∃ e, extract_conversation_markdown
        (pre ++ .valid (.obj fields) :: post) = .error e := by
  obtain ⟨e, he⟩ := parseRoot_error_of_bad_message fields mfields hm hbad
  exact ⟨e, extractLoop_error_first pre "" hok (.valid (.obj fields)) post e he⟩

/-- The JSON value of a line whose kind is `"summary"` (not a
conversational kind) and whose message object lacks a role. -/
def badSummaryJson : Json :=
  .obj [("type", .str "summary"),
        ("message", .obj [("content", .str "x")])]

/-- Witness for C10: the summary line with a role-less message object
fails extraction although its kind would have been filtered out. -/
theorem shape_error_precedes_kind_filter_witness :
    ∃ e, extract_conversation_markdown [.valid badSummaryJson] =
      .error e := by
  exact shape_error_precedes_kind_filter
    [("type", .str "summary"), ("message", .obj [("content", .str "x")])]
    [("content", .str "x")] [] [] rfl (Or.inl rfl)
    (by intro l hl; simp at hl)
